import Mathlib

/-!
Verification of the oil-news aggregation pipeline (src/gen_news.py).

The Python program is shallowly embedded: every pipeline function is
translated to a total Lean definition operating on explicit data.
Python strings are Lean `String`s and all character-level work is done
on `String.data` (`List Char`), so that `len`, slicing and scanning
match Python's code-point semantics.  Python exceptions are modelled
with `Except PyErr`; a `try/except` in the source becomes a `match` on
the `Except` value.  Network and HTML-parsing libraries (requests,
feedparser, BeautifulSoup) are abstracted as an environment `NetEnv`
that delivers the already-parsed payload of each URL, so the embedded
fetchers contain exactly the per-item logic of the source.
-/

/-- Kinds of Python exceptions distinguished by the source's handlers. -/
inductive PyErr where
  | valueError
  | typeError
  | httpError
deriving DecidableEq, Repr

/-! ## Character-level string helpers (Python `re`, `str` methods) -/

/-- Whitespace test used for Python's regex class and `str.strip`. -/
def pyWs (c : Char) : Bool :=
  c = ' ' ∨ c = '\t' ∨ c = '\n' ∨ c = '\r' ∨ c = '\x0b' ∨ c = '\x0c'

/-- Drop leading whitespace, for `str.strip` and `str.lstrip`. -/
def dropWs (l : List Char) : List Char := l.dropWhile (fun c => pyWs c)

/-- Python `str.strip()` on a character list. -/
def pyStripL (l : List Char) : List Char := ((dropWs l).reverse.dropWhile (fun c => pyWs c)).reverse

/-- Python `str.strip()`. -/
def pyStrip (s : String) : String := String.mk (pyStripL s.data)

/-- Python `str.lower()` (ASCII model of the unicode lowering). -/
def pyLower (s : String) : String := String.mk (s.data.map Char.toLower)

/-- Python slice `s[:n]` (code points). -/
def pyTake (s : String) (n : Nat) : String := String.mk (s.data.take n)

/-- State machine for `re.sub(r"<[^>]+>", "", text)`.
`some buf` means a candidate tag was opened by a `<` and `buf` holds
the characters seen since, reversed.  A `<` with no later `>` or with
an immediately following `>` is not a match and is kept verbatim,
exactly as the regex behaves. -/
def stripTagsGo : Option (List Char) → List Char → List Char
  | none, [] => []
  | some buf, [] => '<' :: buf.reverse
  | none, c :: cs =>
      if c = '<' then stripTagsGo (some []) cs else c :: stripTagsGo none cs
  | some buf, c :: cs =>
      if c = '>' then
        if buf.isEmpty then '<' :: '>' :: stripTagsGo none cs
        else stripTagsGo none cs
      else stripTagsGo (some (c :: buf)) cs

/-- `re.sub(r"<[^>]+>", "", text)` of `_clean`. -/
def stripTags (l : List Char) : List Char := stripTagsGo none l

/-- Model of `html.unescape` restricted to the basic named entities;
other text passes through unchanged. -/
def unescGo : List Char → List Char
  | [] => []
  | '&' :: 'a' :: 'm' :: 'p' :: ';' :: cs => '&' :: unescGo cs
  | '&' :: 'l' :: 't' :: ';' :: cs => '<' :: unescGo cs
  | '&' :: 'g' :: 't' :: ';' :: cs => '>' :: unescGo cs
  | '&' :: 'q' :: 'u' :: 'o' :: 't' :: ';' :: cs => '"' :: unescGo cs
  | '&' :: 'a' :: 'p' :: 'o' :: 's' :: ';' :: cs => '\'' :: unescGo cs
  | '&' :: 'n' :: 'b' :: 's' :: 'p' :: ';' :: cs => ' ' :: unescGo cs
  | c :: cs => c :: unescGo cs

/-- `re.sub(r"\s+", " ", text)`: collapse every whitespace run to one
space.  The flag records whether the previous character was part of a
run already replaced. -/
def collapseGo : Bool → List Char → List Char
  | _, [] => []
  | prevWs, c :: cs =>
      if pyWs c then
        if prevWs then collapseGo true cs else ' ' :: collapseGo true cs
      else c :: collapseGo false cs

/-- `_clean`: strip HTML tags, unescape entities, collapse whitespace
and strip the ends; empty/None input maps to the empty string. -/
def _clean (text : String) : String :=
  if text = "" then ""
  else String.mk (pyStripL (collapseGo false (unescGo (stripTags text.data))))

/-- `_truncate`: `text[:n] + "…" if len(text) > n else text`.  The
source gives `n` a default of 500; call sites here always pass `n`
explicitly (500 for summaries, 80 for titles). -/
def _truncate (text : String) (n : Nat) : String :=
  if n < text.length then String.mk (text.data.take n ++ ['…']) else text

theorem length_mk (l : List Char) : (String.mk l).length = l.length := rfl

/-- Truncation bound: the result is at most `n` characters of content
plus the one-character ellipsis mark. -/
theorem _truncate_length_le (text : String) (n : Nat) :
    (_truncate text n).length ≤ n + 1 := by
  unfold _truncate
  split
  · simp only [length_mk, List.length_append, List.length_take, List.length_cons,
      List.length_nil]
    omega
  · omega

/-- Truncation never turns a non-empty string empty. -/
theorem _truncate_ne_empty (text : String) (n : Nat) (h : text ≠ "") :
    _truncate text n ≠ "" := by
  unfold _truncate
  split
  · intro hc
    have : (String.mk (text.data.take n ++ ['…'])).data = ("" : String).data := by rw [hc]
    simp at this
  · exact h

/-! ## Data model -/

/-- One configured news origin (`SOURCES` entries).  The scrape
selectors are not carried here: the environment returns the already
selected elements of a page (the selection itself is BeautifulSoup). -/
structure SourceConfig where
  name : String
  category : String
  method : String
  url : String
  altUrls : List String
deriving DecidableEq, Repr

/-- The normalized record built by every fetcher (the item dicts). -/
structure NewsItem where
  category : String
  title : String
  summary : String
  source : String
  link : String
  time : String
deriving DecidableEq, Repr

/-- A feedparser entry as the RSS fetcher reads it: `e.get(k, default)`
is `Option.getD`, `hasattr` is `Option.isSome`. -/
structure RSSEntry where
  title : Option String
  summary : Option String
  description : Option String
  link : Option String
  published : Option String
  updated : Option String
deriving DecidableEq, Repr

/-- The element selected by the scrape title selector: its visible
text, whether it is itself an `a` tag (then `aHref` is its own href),
and otherwise the href of its first inner `a`, when one exists. -/
structure TitleEl where
  text : String
  isA : Bool
  aHref : Option String
  innerA : Option String
deriving DecidableEq, Repr

/-- One article container of a scraped page, with the results of the
configured sub-selectors already applied. -/
structure ScrapeArticle where
  isATag : Bool
  selfTitle : TitleEl
  titleSel : Option TitleEl
  summarySel : Option String
  timeSel : Option String
deriving DecidableEq, Repr

/-- An `a[href]` tag of the degraded scrape fallback. -/
structure LinkTag where
  text : String
  href : String
deriving DecidableEq, Repr

/-- A scraped page: the containers matched by the article selector and
every hyperlink of the page, for the fallback. -/
structure ScrapePage where
  articles : List ScrapeArticle
  links : List LinkTag
deriving DecidableEq, Repr

/-- One element of the cls.cn `roll_data` array.  `depthRaw = some s`
means `depth_extends` is a dict whose `title` defaults to `s`;
`none` means it is absent, null or not a dict. -/
structure ClsRow where
  content : String
  title : String
  depthRaw : Option String
  shareurl : String
  ctime : Nat
deriving DecidableEq, Repr

/-- The network and parsing environment: for each URL the parsed
payload, or the exception the request raised (`raise_for_status`,
JSON decoding, ...).  `clsTimeFmt` stands for
`time.strftime("%Y-%m-%d %H:%M", time.localtime(ctime))`. -/
structure NetEnv where
  rss : String → Except PyErr (List RSSEntry)
  scrape : String → Except PyErr ScrapePage
  cls : String → Except PyErr (List ClsRow)
  clsTimeFmt : Nat → String

/-- `MAX_ITEMS_PER_SOURCE`. -/
def MAX_ITEMS_PER_SOURCE : Nat := 5

/-! ## RSS fetcher (`_fetch_rss`) -/

/-- The URL walk of `_fetch_rss`: try primary then alternates, keeping
the first successfully fetched feed whose first five entries are
non-empty; a raised exception or an empty parse moves on. -/
def rssWalk (env : NetEnv) : List String → List RSSEntry
  | [] => []
  | u :: us =>
      match env.rss u with
      | Except.error _ => rssWalk env us
      | Except.ok es =>
          let es5 := es.take MAX_ITEMS_PER_SOURCE
          if es5.isEmpty then rssWalk env us else es5

/-- Field mapping of one feed entry to an item dict. -/
def rssEntryItem (src : SourceConfig) (e : RSSEntry) : NewsItem :=
  let pub := (e.published.getD (e.updated.getD ""))
  { category := src.category
    title := _clean (e.title.getD "")
    summary := _truncate (_clean (e.summary.getD (e.description.getD ""))) 500
    source := src.name
    link := e.link.getD ""
    time := pub }

/-- `_fetch_rss`: walk the URLs, then map the retained entries.  All
network failures are caught inside the walk, so the function is total. -/
def _fetch_rss (env : NetEnv) (src : SourceConfig) : List NewsItem :=
  (rssWalk env (src.url :: src.altUrls)).map (rssEntryItem src)

/-! ## Scrape fetcher (`_fetch_scrape`) -/

/-- Python `str.rstrip("/")` on the base URL. -/
def rstripSlash (s : String) : String :=
  String.mk (s.data.reverse.dropWhile (fun c => c = '/')).reverse

/-- Python `str.lstrip("/")` on a relative link. -/
def lstripSlash (s : String) : String :=
  String.mk (s.data.dropWhile (fun c => c = '/'))

/-- Relative links are resolved against the source URL:
`if link and not link.startswith("http")`. -/
def resolveLink (base link : String) : String :=
  if link ≠ "" ∧ ¬ ("http".data.isPrefixOf link.data) then
    rstripSlash base ++ "/" ++ lstripSlash link
  else link

/-- The title element of one container: the container itself when it
is an `a` tag, the title-selector match otherwise. -/
def scrapeTitleEl (art : ScrapeArticle) : Option TitleEl :=
  if art.isATag then some art.selfTitle else art.titleSel

/-- The cleaned title text of one container. -/
def scrapeTitle (art : ScrapeArticle) : String :=
  match scrapeTitleEl art with
  | some t => _clean t.text
  | none => ""

/-- The raw link of one container: the title element's own href when
it is an `a` tag, else the href of its first inner `a` when present. -/
def scrapeLink0 (art : ScrapeArticle) : String :=
  match scrapeTitleEl art with
  | some t =>
      if t.isA then t.aHref.getD ""
      else (match t.innerA with
        | some h => h
        | none => "")
  | none => ""

/-- The truncated summary of one container (empty for `a`-tag
fallback containers). -/
def scrapeSummary (art : ScrapeArticle) : String :=
  match (if art.isATag then none else art.summarySel) with
  | some s => _truncate (_clean s) 500
  | none => ""

/-- The cleaned time text of one container. -/
def scrapeTime (art : ScrapeArticle) : String :=
  match (if art.isATag then none else art.timeSel) with
  | some s => _clean s
  | none => ""

/-- Per-container extraction of `_fetch_scrape`: `none` models the
`continue` on an empty cleaned title. -/
def scrapeItem (src : SourceConfig) (art : ScrapeArticle) : Option NewsItem :=
  if scrapeTitle art = "" then none
  else
    some { category := src.category
           title := _truncate (scrapeTitle art) 80
           summary := scrapeSummary art
           source := src.name
           link := resolveLink src.url (scrapeLink0 art)
           time := scrapeTime art }

/-- An `a[href]` tag viewed as a degraded article container. -/
def linkAsArticle (a : LinkTag) : ScrapeArticle :=
  { isATag := true
    selfTitle := { text := a.text, isA := true, aHref := some a.href, innerA := none }
    titleSel := none
    summarySel := none
    timeSel := none }

/-- The containers a scraped page yields: the first five matches of
the article selector, or the degraded all-hyperlinks fallback when
none match. -/
def scrapeArts (page : ScrapePage) : List ScrapeArticle :=
  let arts := page.articles.take MAX_ITEMS_PER_SOURCE
  if arts.isEmpty then
    ((page.links.filter (fun a => pyStrip a.text ≠ "")).take
      MAX_ITEMS_PER_SOURCE).map linkAsArticle
  else arts

/-- `_fetch_scrape`: fetch one page (any request or status failure
propagates), take the first five article containers, fall back to the
hyperlinks with visible text when none match, and extract per
container. -/
def _fetch_scrape (env : NetEnv) (src : SourceConfig) :
    Except PyErr (List NewsItem) :=
  match env.scrape src.url with
  | Except.error e => Except.error e
  | Except.ok page => Except.ok ((scrapeArts page).filterMap (scrapeItem src))

/-! ## cls.cn API fetcher (`_fetch_cls_api`) -/

/-- The cleaned telegraph body of one row. -/
def clsContent (row : ClsRow) : String := _clean row.content

/-- The display title priority chain of `_fetch_cls_api`: depth
title, else plain title, else the first 60 characters of the body. -/
def clsDisplayTitle (row : ClsRow) : String :=
  let title := _clean row.title
  let depth_title := match row.depthRaw with
    | some s => _clean s
    | none => ""
  if depth_title ≠ "" then depth_title
  else if title ≠ "" then title
  else pyTake (clsContent row) 60

/-- The summary of one row: the full body, but only when it differs
from the chosen display title. -/
def clsSummary (row : ClsRow) : String :=
  if clsContent row ≠ clsDisplayTitle row then _truncate (clsContent row) 500 else ""

/-- Per-row extraction of `_fetch_cls_api`; `none` models the
`continue` when no display title can be derived. -/
def clsItem (env : NetEnv) (src : SourceConfig) (row : ClsRow) : Option NewsItem :=
  if clsDisplayTitle row = "" then none
  else
    some { category := src.category
           title := _truncate (clsDisplayTitle row) 80
           summary := clsSummary row
           source := src.name
           link := row.shareurl
           time := if row.ctime ≠ 0 then env.clsTimeFmt row.ctime else "" }

/-- `_fetch_cls_api`: fetch and decode the JSON payload (failures
propagate), then map the rows; the API strategy applies no per-source
cap of its own. -/
def _fetch_cls_api (env : NetEnv) (src : SourceConfig) :
    Except PyErr (List NewsItem) :=
  match env.cls src.url with
  | Except.error e => Except.error e
  | Except.ok rows => Except.ok (rows.filterMap (clsItem env src))

/-! ## Unified entry point (`fetch_source`) -/

/-- The body of `fetch_source`'s `try` block: dispatch on the
configured method. -/
def fetchDispatch (env : NetEnv) (src : SourceConfig) :
    Except PyErr (List NewsItem) :=
  if src.method = "rss" then Except.ok (_fetch_rss env src)
  else if src.method = "cls_api" then _fetch_cls_api env src
  else _fetch_scrape env src

/-- `fetch_source` with its result still wrapped: `except Exception`
catches every error and turns it into an empty list, so the `Except`
layer never carries an error outward. -/
def fetch_sourceE (env : NetEnv) (src : SourceConfig) :
    Except PyErr (List NewsItem) :=
  match fetchDispatch env src with
  | Except.ok items => Except.ok items
  | Except.error _ => Except.ok []

/-- `fetch_source` as its callers see it. -/
def fetch_source (env : NetEnv) (src : SourceConfig) : List NewsItem :=
  match fetch_sourceE env src with
  | Except.ok items => items
  | Except.error _ => []

/-! ## Relevance of a summary (`_is_summary_useless`) and enrichment -/

/-- `_is_summary_useless`: empty, shorter than 150 characters, or
beginning with the first 30 characters of the title. -/
def _is_summary_useless (title summary : String) : Bool :=
  if summary = "" ∨ summary.length < 150 then true
  else
    let s_lower := pyStrip (pyLower summary)
    let t_lower := pyStrip (pyLower title)
    (pyTake t_lower 30).data.isPrefixOf s_lower.data

/-- The enrichment candidates of `fetch_all`:
`[n for n in filtered if _is_summary_useless(...) and n.get("link")]`. -/
def needEnrich (l : List NewsItem) : List NewsItem :=
  l.filter (fun n => _is_summary_useless n.title n.summary ∧ n.link ≠ "")

/-- The enrichment write-back of `fetch_all`: the fetched description
replaces the summary only when non-empty and strictly longer. -/
def enrichApply (item : NewsItem) (desc : String) : NewsItem :=
  if desc ≠ "" ∧ item.summary.length < desc.length then
    { item with summary := _truncate desc 500 }
  else item

/-- The translation write-back of `_flush_batch`: a translated text
replaces the summary only when longer than 10 characters. -/
def translateApply (item : NewsItem) (result : String) : NewsItem :=
  if result ≠ "" ∧ 10 < result.length then
    { item with summary := _truncate result 500 }
  else item

/-! ## Translation batching (`_translate_summaries`) -/

/-- Total character count of a batch. -/
def batchLen (b : List String) : Nat := (b.map String.length).sum

/-- The batching loop of `_translate_summaries`: `acc` is the current
batch reversed and `cnt` its character count; a text that would push
the count past 4500 first flushes the non-empty current batch. -/
def batchGo (acc : List String) (cnt : Nat) : List String → List (List String)
  | [] => if acc.isEmpty then [] else [acc.reverse]
  | t :: ts =>
      if 4500 < cnt + t.length ∧ ¬ acc.isEmpty then
        acc.reverse :: batchGo [t] t.length ts
      else batchGo (t :: acc) (cnt + t.length) ts

/-- The batch grouping applied to the candidate texts, in input
order. -/
def _translate_batches (texts : List String) : List (List String) :=
  batchGo [] 0 texts

/-! ## Per-source cap of `fetch_all` -/

/-- The capping loop: `cnt` is the `source_count` dict (absent keys
count 0); an item is kept while its source's count stays within
`MAX_ITEMS_PER_SOURCE`. -/
def limitGo (cnt : String → Nat) : List NewsItem → List NewsItem
  | [] => []
  | n :: rest =>
      let c := cnt n.source + 1
      let cnt2 : String → Nat := fun s => if s = n.source then c else cnt s
      if c ≤ MAX_ITEMS_PER_SOURCE then n :: limitGo cnt2 rest
      else limitGo cnt2 rest

/-- The per-source cap applied to the merged filtered list. -/
def limitPerSource (l : List NewsItem) : List NewsItem := limitGo (fun _ => 0) l

/-! ## Freshness cutoff and final sort of `fetch_all` -/

/-- An item with its resolved time attached (`n["_dt"]`).  Timestamps
are seconds of a timezone-aware datetime counted from `datetime.min`,
so `0` is the smallest value a known time can take. -/
structure TimedNews extends NewsItem where
  dt : Option Nat
deriving DecidableEq, Repr

/-- Seconds in `timedelta(weeks=2)`. -/
def twoWeeks : Nat := 1209600

/-- `cutoff = datetime.now(timezone.utc) - timedelta(weeks=2)`. -/
def cutoffOf (now : Nat) : Nat := now - twoWeeks

/-- `n["_dt"] is None or n["_dt"] >= cutoff`. -/
def freshKeep (now : Nat) (n : TimedNews) : Bool :=
  match n.dt with
  | none => true
  | some t => decide (cutoffOf now ≤ t)

/-- The freshness filter:
`[n for n in filtered if n["_dt"] is None or n["_dt"] >= cutoff]`. -/
def freshFilter (now : Nat) (l : List TimedNews) : List TimedNews :=
  l.filter (freshKeep now)

/-- The sort key: `n["_dt"] or datetime.min` (an unknown time sorts as
the minimum). -/
def sortKey (n : TimedNews) : Nat := n.dt.getD 0

/-- Stable insertion for the descending sort: an element is placed
before the first strictly smaller key, after every earlier element
with an equal or larger key. -/
def insDesc (x : TimedNews) : List TimedNews → List TimedNews
  | [] => [x]
  | y :: ys => if sortKey y < sortKey x then x :: y :: ys else y :: insDesc x ys

/-- `filtered.sort(key=..., reverse=True)`: a stable descending sort
by `sortKey`. -/
def sortDesc (l : List TimedNews) : List TimedNews :=
  l.foldl (fun acc x => insDesc x acc) []

/-- The tail of `fetch_all`: freshness cutoff then descending sort. -/
def pipelineTail (now : Nat) (l : List TimedNews) : List TimedNews :=
  sortDesc (freshFilter now l)

/-! ## Time normalizer (`_parse_time`)

Python datetimes are embedded as calendar fields plus an optional
timezone offset in seconds; `tzOffSec = none` is a naive datetime.
The stdlib helpers the source calls (`email.utils.parsedate_to_datetime`,
`datetime.strptime`) are modelled below at the level the source relies
on; every failure they can raise is tagged with the exception class the
source's handlers distinguish. -/

/-- A Python `datetime`: fields plus optional timezone offset. -/
structure PyDateTime where
  year : Nat
  month : Nat
  day : Nat
  hour : Nat
  minute : Nat
  second : Nat
  tzOffSec : Option Int
deriving DecidableEq, Repr

/-- Gregorian leap year, as the `datetime` module computes it. -/
def isLeap (y : Nat) : Bool := (y % 4 = 0 ∧ y % 100 ≠ 0) ∨ y % 400 = 0

/-- Days in a month, for `datetime`'s day-range validation. -/
def daysInMonth (y mo : Nat) : Nat :=
  if mo = 2 then (if isLeap y then 29 else 28)
  else if mo = 4 ∨ mo = 6 ∨ mo = 9 ∨ mo = 11 then 30
  else 31

/-- Timezone offsets accepted by `datetime.timezone`: strictly less
than 24 hours in magnitude. -/
def tzOkB : Option Int → Bool
  | none => true
  | some o => o.natAbs < 86400

/-- The `datetime(...)` constructor: validates every field and raises
`ValueError` otherwise. -/
def mkDatetime (y mo d h mi s : Nat) (tz : Option Int) : Except PyErr PyDateTime :=
  if 1 ≤ y ∧ y ≤ 9999 ∧ 1 ≤ mo ∧ mo ≤ 12 ∧ 1 ≤ d ∧ d ≤ daysInMonth y mo
      ∧ h ≤ 23 ∧ mi ≤ 59 ∧ s ≤ 59 ∧ tzOkB tz = true then
    Except.ok ⟨y, mo, d, h, mi, s, tz⟩
  else Except.error PyErr.valueError

/-- `dt.replace(hour=..., minute=...)`: validates and raises
`ValueError` on an out-of-range field. -/
def replaceHM (dt : PyDateTime) (h mi : Nat) : Except PyErr PyDateTime :=
  if h ≤ 23 ∧ mi ≤ 59 then Except.ok { dt with hour := h, minute := mi }
  else Except.error PyErr.valueError

/-- `if dt.tzinfo is None: dt = dt.replace(tzinfo=timezone.utc)`. -/
def ensureUTC (dt : PyDateTime) : PyDateTime :=
  match dt.tzOffSec with
  | none => { dt with tzOffSec := some 0 }
  | some _ => dt

/-- Read exactly `k` digits, returning their value and the rest. -/
def readExactGo (acc : Nat) : Nat → List Char → Option (Nat × List Char)
  | 0, s => some (acc, s)
  | Nat.succ _, [] => none
  | Nat.succ k, c :: s =>
      if c.isDigit then readExactGo (acc * 10 + (c.toNat - 48)) k s else none

/-- Read exactly `k` digits. -/
def readExact (k : Nat) (s : List Char) : Option (Nat × List Char) :=
  readExactGo 0 k s

/-- A numeric strptime directive matching one or two digits: the
two-digit reading is tried first and must satisfy `ok2`, the one-digit
fallback must satisfy `ok1` (the value classes of CPython's field
regexes). -/
def read2or1 (ok2 ok1 : Nat → Bool) : List Char → Option (Nat × List Char)
  | c1 :: c2 :: rest =>
      if c1.isDigit ∧ c2.isDigit ∧ ok2 ((c1.toNat - 48) * 10 + (c2.toNat - 48)) = true then
        some ((c1.toNat - 48) * 10 + (c2.toNat - 48), rest)
      else if c1.isDigit ∧ ok1 (c1.toNat - 48) = true then
        some (c1.toNat - 48, c2 :: rest)
      else none
  | [c1] => if c1.isDigit ∧ ok1 (c1.toNat - 48) = true then some (c1.toNat - 48, []) else none
  | [] => none

/-- Lowercased English month abbreviations (`%b`). -/
def monthAbbrs : List String :=
  ["jan", "feb", "mar", "apr", "may", "jun", "jul", "aug", "sep", "oct", "nov", "dec"]

/-- Lowercased full English month names (`%B`). -/
def monthFulls : List String :=
  ["january", "february", "march", "april", "may", "june", "july", "august",
   "september", "october", "november", "december"]

/-- Case-insensitive name match returning the remaining input. -/
def matchName : List Char → List Char → Option (List Char)
  | [], s => some s
  | _ :: _, [] => none
  | n :: ns, c :: cs => if c.toLower = n then matchName ns cs else none

/-- Match one month name from a list, returning its 1-based index. -/
def matchMonth (i : Nat) : List String → List Char → Option (Nat × List Char)
  | [], _ => none
  | nm :: nms, s =>
      match matchName nm.data s with
      | some rest => some (i, rest)
      | none => matchMonth (i + 1) nms s

/-- The `%z` directive: `Z`, or a sign, two hour digits, an optional
colon and two minute digits below 60.  (The optional seconds part of
the full CPython class is not modelled; none of the source's formats
nor its feed inputs carry sub-minute offsets.) -/
def readTzDir : List Char → Option (Int × List Char)
  | 'Z' :: cs => some (0, cs)
  | c :: c1 :: c2 :: rest =>
      if (c = '+' ∨ c = '-') ∧ c1.isDigit ∧ c2.isDigit then
        let hh := (c1.toNat - 48) * 10 + (c2.toNat - 48)
        let rest2 := match rest with
          | ':' :: r => r
          | r => r
        match rest2 with
        | m1 :: m2 :: rest3 =>
            if m1.isDigit ∧ m2.isDigit ∧ m1.toNat - 48 ≤ 5 then
              let off : Int := ((hh * 3600 + ((m1.toNat - 48) * 10 + (m2.toNat - 48)) * 60 : Nat) : Int)
              some (if c = '-' then -off else off, rest3)
            else none
        | _ => none
      else none
  | _ => none

/-- The fields `strptime` accumulates, with CPython's defaults. -/
structure StrpFields where
  y : Nat
  m : Nat
  d : Nat
  h : Nat
  mi : Nat
  s : Nat
  tz : Option Int
deriving DecidableEq, Repr

/-- The strptime matching engine over the directives the source's
format list uses.  Matching is case-insensitive, a whitespace format
character consumes a whitespace run, and the whole input must be
consumed (CPython rejects trailing characters). -/
def runFmt : List Char → List Char → StrpFields → Option StrpFields
  | [], [], f => some f
  | [], _ :: _, _ => none
  | '%' :: 'Y' :: fr, s, f =>
      (match readExact 4 s with
       | some (v, r) => runFmt fr r { f with y := v }
       | none => none)
  | '%' :: 'm' :: fr, s, f =>
      (match read2or1 (fun v => 1 ≤ v ∧ v ≤ 12) (fun v => 1 ≤ v) s with
       | some (v, r) => runFmt fr r { f with m := v }
       | none => none)
  | '%' :: 'd' :: fr, s, f =>
      (match read2or1 (fun v => 1 ≤ v ∧ v ≤ 31) (fun v => 1 ≤ v) s with
       | some (v, r) => runFmt fr r { f with d := v }
       | none => none)
  | '%' :: 'H' :: fr, s, f =>
      (match read2or1 (fun v => v ≤ 23) (fun _ => true) s with
       | some (v, r) => runFmt fr r { f with h := v }
       | none => none)
  | '%' :: 'M' :: fr, s, f =>
      (match read2or1 (fun v => v ≤ 59) (fun _ => true) s with
       | some (v, r) => runFmt fr r { f with mi := v }
       | none => none)
  | '%' :: 'S' :: fr, s, f =>
      (match read2or1 (fun v => v ≤ 61) (fun _ => true) s with
       | some (v, r) => runFmt fr r { f with s := v }
       | none => none)
  | '%' :: 'b' :: fr, s, f =>
      (match matchMonth 1 monthAbbrs s with
       | some (v, r) => runFmt fr r { f with m := v }
       | none => none)
  | '%' :: 'B' :: fr, s, f =>
      (match matchMonth 1 monthFulls s with
       | some (v, r) => runFmt fr r { f with m := v }
       | none => none)
  | '%' :: 'z' :: fr, s, f =>
      (match readTzDir s with
       | some (v, r) => runFmt fr r { f with tz := some v }
       | none => none)
  | '%' :: _ :: _, _, _ => none
  | ['%'], _, _ => none
  | c :: fr, s, f =>
      if pyWs c then
        match s with
        | d :: ds => if pyWs d then runFmt fr (dropWs ds) f else none
        | [] => none
      else
        match s with
        | d :: ds => if c.toLower = d.toLower then runFmt fr ds f else none
        | [] => none

/-- `datetime.strptime(data_string, fmt)`: run the matcher and build
the datetime; any failure is a `ValueError`. -/
def strptime (data_string fmt : String) : Except PyErr PyDateTime :=
  match runFmt fmt.data data_string.data ⟨1900, 1, 1, 0, 0, 0, none⟩ with
  | none => Except.error PyErr.valueError
  | some f => mkDatetime f.y f.m f.d f.h f.mi f.s f.tz

/-- `_TIME_FORMATS`. -/
def _TIME_FORMATS : List String :=
  ["%Y-%m-%d %H:%M",
   "%Y-%m-%d %H:%M:%S",
   "%Y-%m-%dT%H:%M:%S",
   "%Y-%m-%dT%H:%M:%SZ",
   "%Y-%m-%dT%H:%M:%S%z",
   "%b %d, %Y",
   "%B %d, %Y",
   "%d %b %Y",
   "%d %B %Y",
   "%Y/%m/%d %H:%M"]

/-- Tier 2 of `_parse_time`: try each format, catching only
`ValueError` (`except ValueError: continue`); any other error kind
would escape this loop. -/
def tryFormats : List String → String → Except PyErr (Option PyDateTime)
  | [], _ => Except.ok none
  | fmt :: fmts, s =>
      match strptime s fmt with
      | Except.ok dt => Except.ok (some (ensureUTC dt))
      | Except.error PyErr.valueError => tryFormats fmts s
      | Except.error e => Except.error e

/-! ### `email.utils.parsedate_to_datetime` (tier 1) -/

/-- Whitespace-separated tokens, empties dropped (`str.split()`). -/
def wsTokensGo (cur : List Char) : List Char → List (List Char)
  | [] => if cur.isEmpty then [] else [cur.reverse]
  | c :: cs =>
      if pyWs c then
        if cur.isEmpty then wsTokensGo [] cs else cur.reverse :: wsTokensGo [] cs
      else wsTokensGo (c :: cur) cs

/-- Whitespace-separated tokens of a string. -/
def wsTokens (l : List Char) : List (List Char) := wsTokensGo [] l

/-- Lowercase a token. -/
def lowerL (l : List Char) : List Char := l.map Char.toLower

/-- Uppercase a token. -/
def upperL (l : List Char) : List Char := l.map Char.toUpper

/-- Does the token end with a comma? -/
def endsComma (t : List Char) : Bool :=
  match t.getLast? with
  | some ',' => true
  | _ => false

/-- Drop one trailing comma when present (`if t[-1] == ','`). -/
def dropLastComma (t : List Char) : List Char :=
  if endsComma t then t.dropLast else t

/-- `t[t.rfind(',')+1:]`: the part after the last comma (the whole
token when there is none). -/
def afterLastComma (t : List Char) : List Char :=
  (t.reverse.takeWhile (fun c => c ≠ ',')).reverse

/-- Split a token on a separator character, keeping empty pieces. -/
def splitOnGo (sep : Char) (cur : List Char) : List Char → List (List Char)
  | [] => [cur.reverse]
  | c :: cs => if c = sep then cur.reverse :: splitOnGo sep [] cs else splitOnGo sep (c :: cur) cs

/-- Split a token on a separator character (`str.split(sep)`). -/
def splitOn1 (sep : Char) (l : List Char) : List (List Char) := splitOnGo sep [] l

/-- A run of decimal digits to its value. -/
def digitsValGo (acc : Nat) : List Char → Option Nat
  | [] => some acc
  | c :: cs => if c.isDigit then digitsValGo (acc * 10 + (c.toNat - 48)) cs else none

/-- Value of a non-empty all-digit token. -/
def digitsVal : List Char → Option Nat
  | [] => none
  | l => digitsValGo 0 l

/-- Python `int(token)`: optional sign then digits; anything else is a
`ValueError` (here `none`). -/
def pyIntL : List Char → Option Int
  | '-' :: ds => (digitsVal ds).map (fun n => -(n : Int))
  | '+' :: ds => (digitsVal ds).map (fun n => (n : Int))
  | ds => (digitsVal ds).map (fun n => (n : Int))

/-- `email._parseaddr._daynames`. -/
def pdDaynames : List String := ["mon", "tue", "wed", "thu", "fri", "sat", "sun"]

/-- `email._parseaddr._monthnames`: abbreviations then full names. -/
def pdMonthnames : List String := monthAbbrs ++ monthFulls

/-- Index of a lowered token in the month-name table, folded to 1..12. -/
def pdMonthIdx (t : List Char) : Option Nat :=
  match pdMonthnames.findIdx? (fun nm => nm.data == t) with
  | none => none
  | some i => some (if 12 < i + 1 then i + 1 - 12 else i + 1)

/-- `email._parseaddr._timezones` (values in the hundreds format). -/
def pdTzTable : List (String × Int) :=
  [("UT", 0), ("UTC", 0), ("GMT", 0), ("Z", 0),
   ("AST", -400), ("ADT", -300), ("EST", -500), ("EDT", -400),
   ("CST", -600), ("CDT", -500), ("MST", -700), ("MDT", -600),
   ("PST", -800), ("PDT", -700)]

/-- Table lookup by uppercased zone name. -/
def pdTzLookup (t : List Char) : Option Int :=
  (pdTzTable.find? (fun p => p.1.data == upperL t)).map (fun p => p.2)

/-- `-0500 -> -18000`: convert a truthy hundreds offset to seconds;
`None` and `0` pass through. -/
def pdTzConv : Option Int → Option Int
  | none => none
  | some 0 => some 0
  | some o =>
      let sign : Int := if o < 0 then -1 else 1
      let a := o.natAbs
      some (sign * (((a / 100) * 3600 + (a % 100) * 60 : Nat) : Int))

/-- The timezone resolution of `_parsedate_tz`: table name, else
integer offset; an offset of `0` written with a minus sign means an
unknown zone. -/
def pdTz (tz0 : List Char) : Option Int :=
  let tzs := pyStripL tz0
  match pdTzLookup tzs with
  | some v => pdTzConv (some v)
  | none =>
      let v := pyIntL tzs
      let v2 := match v with
        | some 0 => if tzs.head? = some '-' then none else some 0
        | x => x
      pdTzConv v2

/-- The time-of-day token split of `_parsedate_tz`: `hh:mm`,
`hh:mm:ss`, or the dot-separated variants. -/
def timeParts (tm : List Char) : Option (List Char × List Char × List Char) :=
  match splitOn1 ':' tm with
  | [a, b] => some (a, b, ['0'])
  | [a, b, c] => some (a, b, c)
  | [a] =>
      if a.contains '.' then
        match splitOn1 '.' a with
        | [x, y] => some (x, y, ['0'])
        | [x, y, z] => some (x, y, z)
        | _ => none
      else none
  | _ => none

/-- The parsed pieces of `_parsedate_tz` before `datetime` validation;
year/day/time are `Int` because `int()` accepts signs. -/
structure PDParts where
  year : Int
  month : Nat
  day : Int
  hour : Int
  minute : Int
  second : Int
  tzSec : Option Int
deriving DecidableEq, Repr

/-- The tail of `_parsedate_tz` once the five tokens are fixed:
month-name resolution (with the day/month swap), comma stripping, the
year/time and year/zone swaps, time split, integer conversion and the
two-digit-year rule. -/
def pdCore2 (dd1 : List Char) (monthIdx : Nat) (yy0 tm0 tz0 : List Char) : Option PDParts :=
  let dd2 := dropLastComma dd1
  let swapYT : Bool := match yy0.findIdx? (fun c => c = ':') with
    | some i => decide (0 < i)
    | none => false
  let yy1 := if swapYT then tm0 else yy0
  let tm1 := if swapYT then yy0 else tm0
  let yy2 := dropLastComma yy1
  let headDigit := match yy2.head? with
    | some c => c.isDigit
    | none => false
  let yy3 := if headDigit then yy2 else tz0
  let tz1 := if headDigit then tz0 else yy2
  let tm2 := dropLastComma tm1
  match timeParts tm2 with
  | none => none
  | some (thh, tmm, tss) =>
      match pyIntL yy3, pyIntL dd2, pyIntL thh, pyIntL tmm, pyIntL tss with
      | some yy, some dd, some h, some mi, some ss =>
          let yy4 : Int := if yy < 100 then (if 68 < yy then yy + 1900 else yy + 2000) else yy
          some ⟨yy4, monthIdx, dd, h, mi, ss, pdTz tz1⟩
      | _, _, _, _, _ => none

/-- Month resolution of `_parsedate_tz`: if the second token is not a
month name, the first and second are swapped (both lowered). -/
def pdCore (dd0 mm0 yy0 tm0 tz0 : List Char) : Option PDParts :=
  let mmL := lowerL mm0
  match pdMonthIdx mmL with
  | some mi => pdCore2 dd0 mi yy0 tm0 tz0
  | none =>
      match pdMonthIdx (lowerL dd0) with
      | some mi => pdCore2 mmL mi yy0 tm0 tz0
      | none => none

/-- `email._parseaddr._parsedate_tz`: tokenization, day-of-week
removal, the RFC-850 dash form, gluing a signed zone onto the time
token, then the five-token core. -/
def parsedate_tz (s : String) : Option PDParts :=
  match wsTokens s.data with
  | [] => none
  | t0 :: rest =>
      let data1 :=
        if endsComma t0 ∨ pdDaynames.contains (String.mk (lowerL t0)) then rest
        else afterLastComma t0 :: rest
      let data2 :=
        match data1 with
        | [t] => [t]
        | t :: ts =>
            if data1.length = 3 then
              let stuff := splitOn1 '-' t
              if stuff.length = 3 then stuff ++ ts else data1
            else data1
        | [] => []
      let data3 :=
        if data2.length = 4 then
          match data2.getLast? with
          | some t3 =>
              let iPlus : Option Nat := match t3.findIdx? (fun c => c = '+') with
                | some j => some j
                | none => t3.findIdx? (fun c => c = '-')
              match iPlus with
              | some j =>
                  if 0 < j then data2.dropLast ++ [t3.take j, t3.drop j]
                  else data2 ++ [[]]
              | none => data2 ++ [[]]
          | none => data2
        else data2
      if data3.length < 5 then none
      else
        match data3.take 5 with
        | [dd0, mm0, yy0, tm0, tz0] => pdCore dd0 mm0 yy0 tm0 tz0
        | _ => none

/-- `email.utils.parsedate_to_datetime`: an unparseable string raises
`ValueError`; the `datetime` constructor validates the fields (its
`ValueError` propagates, as does the rare `IndexError` of malformed
tokens, which tier 1's bare `except Exception` also catches). -/
def parsedate_to_datetime (s : String) : Except PyErr PyDateTime :=
  match parsedate_tz s with
  | none => Except.error PyErr.valueError
  | some p =>
      if 0 ≤ p.year ∧ 0 ≤ p.day ∧ 0 ≤ p.hour ∧ 0 ≤ p.minute ∧ 0 ≤ p.second then
        mkDatetime p.year.toNat p.month p.day.toNat p.hour.toNat p.minute.toNat
          p.second.toNat p.tzSec
      else Except.error PyErr.valueError

/-! ### Tier 3: the tolerant date regex -/

/-- Year/month separator class of the extraction regex. -/
def isSepYM (c : Char) : Bool := c = '年' ∨ c = '-' ∨ c = '/'

/-- Month/day separator class of the extraction regex. -/
def isSepMD (c : Char) : Bool := c = '月' ∨ c = '-' ∨ c = '/'

/-- One or two digits followed by a separator, greedy with the
one-digit backtrack of the regex engine. -/
def d2or1Sep (sepOk : Char → Bool) : List Char → Option (Nat × List Char)
  | c1 :: c2 :: s3 :: rest =>
      if c1.isDigit ∧ c2.isDigit ∧ sepOk s3 = true then
        some ((c1.toNat - 48) * 10 + (c2.toNat - 48), rest)
      else if c1.isDigit ∧ sepOk c2 = true then some (c1.toNat - 48, s3 :: rest)
      else none
  | [c1, c2] => if c1.isDigit ∧ sepOk c2 = true then some (c1.toNat - 48, []) else none
  | _ => none

/-- The final `\d{1,2}` group: greedy two digits, else one. -/
def d2or1End : List Char → Option Nat
  | c1 :: c2 :: _ =>
      if c1.isDigit ∧ c2.isDigit then some ((c1.toNat - 48) * 10 + (c2.toNat - 48))
      else if c1.isDigit then some (c1.toNat - 48)
      else none
  | [c1] => if c1.isDigit then some (c1.toNat - 48) else none
  | [] => none

/-- Attempt the date pattern at the current position: four digits, a
separator, one-or-two digits, a separator, one-or-two digits. -/
def dateAt : List Char → Option (Nat × Nat × Nat)
  | c1 :: c2 :: c3 :: c4 :: s1 :: rest =>
      if c1.isDigit ∧ c2.isDigit ∧ c3.isDigit ∧ c4.isDigit ∧ isSepYM s1 = true then
        let y := ((c1.toNat - 48) * 10 + (c2.toNat - 48)) * 100
          + (c3.toNat - 48) * 10 + (c4.toNat - 48)
        match d2or1Sep isSepMD rest with
        | some (mo, rest2) =>
            match d2or1End rest2 with
            | some d => some (y, mo, d)
            | none => none
        | none => none
      else none
  | _ => none

/-- `re.search` for the date pattern: leftmost position wins. -/
def findDate : List Char → Option (Nat × Nat × Nat)
  | [] => none
  | c :: cs =>
      match dateAt (c :: cs) with
      | some r => some r
      | none => findDate cs

/-- One-digit-hour variant of the `HH:MM` pattern. -/
def hmAt1 : List Char → Option (Nat × Nat)
  | c1 :: ':' :: m1 :: m2 :: _ =>
      if c1.isDigit ∧ m1.isDigit ∧ m2.isDigit then
        some (c1.toNat - 48, (m1.toNat - 48) * 10 + (m2.toNat - 48))
      else none
  | _ => none

/-- Attempt `(\d{1,2}):(\d{2})` at the current position, greedy on the
hour with backtracking. -/
def hmAt (l : List Char) : Option (Nat × Nat) :=
  match l with
  | c1 :: c2 :: ':' :: m1 :: m2 :: _ =>
      if c1.isDigit ∧ c2.isDigit ∧ m1.isDigit ∧ m2.isDigit then
        some ((c1.toNat - 48) * 10 + (c2.toNat - 48), (m1.toNat - 48) * 10 + (m2.toNat - 48))
      else hmAt1 l
  | _ => hmAt1 l

/-- `re.search` for the hour/minute pair. -/
def findHM : List Char → Option (Nat × Nat)
  | [] => none
  | c :: cs =>
      match hmAt (c :: cs) with
      | some r => some r
      | none => findHM cs

/-- Tier 3 of `_parse_time`: extract a date, build a UTC datetime, then
optionally overwrite hour and minute; a `ValueError` anywhere in the
`try` discards the whole tier (`except ValueError: pass`). -/
def tier3 (s : List Char) : Option PyDateTime :=
  match findDate s with
  | none => none
  | some (y, mo, d) =>
      match mkDatetime y mo d 0 0 0 (some 0) with
      | Except.error _ => none
      | Except.ok dt =>
          match findHM s with
          | none => some dt
          | some (h, mi) =>
              match replaceHM dt h mi with
              | Except.error _ => none
              | Except.ok dt2 => some dt2

/-- `_parse_time`: empty input is unknown; otherwise strip, then try
the RFC-2822 parse (any exception caught), then the format list
(only `ValueError` caught), then the tolerant regex.  `Except.ok`
models normal return, `Except.error` an escaping exception. -/
def _parse_time (time_str : String) : Except PyErr (Option PyDateTime) :=
  if time_str = "" then Except.ok none
  else
    let ts := pyStrip time_str
    match parsedate_to_datetime ts with
    | Except.ok dt => Except.ok (some (ensureUTC dt))
    | Except.error _ =>
        match tryFormats _TIME_FORMATS ts with
        | Except.error e => Except.error e
        | Except.ok (some dt) => Except.ok (some dt)
        | Except.ok none => Except.ok (tier3 ts.data)

/-! # Theorems -/

instance {ε α : Type} [DecidableEq ε] [DecidableEq α] : DecidableEq (Except ε α) := fun x y =>
  match x, y with
  | Except.ok a, Except.ok b =>
      if h : a = b then isTrue (by rw [h]) else isFalse (by intro hc; cases hc; exact h rfl)
  | Except.error a, Except.error b =>
      if h : a = b then isTrue (by rw [h]) else isFalse (by intro hc; cases hc; exact h rfl)
  | Except.ok _, Except.error _ => isFalse (by intro hc; cases hc)
  | Except.error _, Except.ok _ => isFalse (by intro hc; cases hc)

/-! ## C6: the time normalizer is total, aware and deterministic -/

theorem mkDatetime_error {y mo d h mi s : Nat} {tz : Option Int} {e : PyErr}
    (hE : mkDatetime y mo d h mi s tz = Except.error e) : e = PyErr.valueError := by
  unfold mkDatetime at hE
  split at hE
  · cases hE
  · cases hE
    rfl

theorem mkDatetime_ok_tz {y mo d h mi s : Nat} {tz : Option Int} {dt : PyDateTime}
    (hO : mkDatetime y mo d h mi s tz = Except.ok dt) : dt.tzOffSec = tz := by
  unfold mkDatetime at hO
  split at hO
  · cases hO
    rfl
  · cases hO

theorem replaceHM_tz {dt : PyDateTime} {h mi : Nat} {dt2 : PyDateTime}
    (hO : replaceHM dt h mi = Except.ok dt2) : dt2.tzOffSec = dt.tzOffSec := by
  unfold replaceHM at hO
  split at hO
  · cases hO
    rfl
  · cases hO

theorem strptime_error {ds fmt : String} {e : PyErr}
    (hE : strptime ds fmt = Except.error e) : e = PyErr.valueError := by
  unfold strptime at hE
  cases hR : runFmt fmt.data ds.data ⟨1900, 1, 1, 0, 0, 0, none⟩ with
  | none =>
      rw [hR] at hE
      cases hE
      rfl
  | some f =>
      rw [hR] at hE
      exact mkDatetime_error hE

theorem ensureUTC_isSome (dt : PyDateTime) : (ensureUTC dt).tzOffSec.isSome = true := by
  cases h : dt.tzOffSec with
  | none => simp [ensureUTC, h]
  | some o => simp [ensureUTC, h]

theorem tier3_aware {s : List Char} {dt : PyDateTime}
    (hT : tier3 s = some dt) : dt.tzOffSec.isSome = true := by
  unfold tier3 at hT
  split at hT
  · cases hT
  · split at hT
    · cases hT
    · rename_i dt0 hmk
      split at hT
      · cases hT
        rw [mkDatetime_ok_tz hmk]
        rfl
      · split at hT
        · cases hT
        · rename_i dt2 hrep
          cases hT
          rw [replaceHM_tz hrep, mkDatetime_ok_tz hmk]
          rfl

theorem tryFormats_ok (fmts : List String) (s : String) :
    ∃ r, tryFormats fmts s = Except.ok r := by
  induction fmts with
  | nil => exact ⟨none, rfl⟩
  | cons fmt fmts ih =>
      cases hS : strptime s fmt with
      | ok dt => exact ⟨some (ensureUTC dt), by simp [tryFormats, hS]⟩
      | error e =>
          have he := strptime_error hS
          subst he
          obtain ⟨r, hr⟩ := ih
          exact ⟨r, by simp [tryFormats, hS, hr]⟩

theorem tryFormats_aware {fmts : List String} {s : String} {dt : PyDateTime}
    (h : tryFormats fmts s = Except.ok (some dt)) : dt.tzOffSec.isSome = true := by
  induction fmts with
  | nil => simp [tryFormats] at h
  | cons fmt fmts ih =>
      cases hS : strptime s fmt with
      | ok dt0 =>
          simp only [tryFormats, hS, Except.ok.injEq, Option.some.injEq] at h
          rw [← h]
          exact ensureUTC_isSome dt0
      | error e =>
          have he := strptime_error hS
          subst he
          simp only [tryFormats, hS] at h
          exact ih h

theorem parse_time_ok_aware (s : String) :
    ∃ r, _parse_time s = Except.ok r ∧
      ∀ dt, r = some dt → dt.tzOffSec.isSome = true := by
  by_cases hs : s = ""
  · subst hs
    refine ⟨none, rfl, ?_⟩
    intro dt h
    cases h
  · cases hP : parsedate_to_datetime (pyStrip s) with
    | ok dt =>
        refine ⟨some (ensureUTC dt), ?_, ?_⟩
        · unfold _parse_time
          rw [if_neg hs]
          simp only [hP]
        · intro dt2 h
          injection h with h2
          rw [← h2]
          exact ensureUTC_isSome dt
    | error e0 =>
        obtain ⟨r, hr⟩ := tryFormats_ok _TIME_FORMATS (pyStrip s)
        cases r with
        | some dt =>
            refine ⟨some dt, ?_, ?_⟩
            · unfold _parse_time
              rw [if_neg hs]
              simp only [hP, hr]
            · intro dt2 h
              injection h with h2
              rw [← h2]
              exact tryFormats_aware hr
        | none =>
            refine ⟨tier3 (pyStrip s).data, ?_, ?_⟩
            · unfold _parse_time
              rw [if_neg hs]
              simp only [hP, hr]
            · intro dt2 h
              exact tier3_aware h

/-- C6: for every input string the time normalizer `_parse_time`
returns normally (no exception escapes it) with either a
timezone-aware datetime or the unknown sentinel `none`, and it is
deterministic: equal inputs give equal outputs. -/
theorem c6_parse_time_safe (s : String) :
    (∃ r, _parse_time s = Except.ok r) ∧
    (∀ dt, _parse_time s = Except.ok (some dt) → dt.tzOffSec.isSome = true) ∧
    _parse_time s = _parse_time s := by
  obtain ⟨r, hr, haw⟩ := parse_time_ok_aware s
  refine ⟨⟨r, hr⟩, ?_, rfl⟩
  intro dt h
  rw [hr] at h
  injection h with h2
  exact haw dt h2

/-- Witness for C6 at a concrete input: the normalizer parses
`"2026-02-21 12:34"` to an aware UTC datetime. -/
theorem c6_witness :
    _parse_time "2026-02-21 12:34" =
      Except.ok (some ⟨2026, 2, 21, 12, 34, 0, some 0⟩) ∧
    (⟨2026, 2, 21, 12, 34, 0, some 0⟩ : PyDateTime).tzOffSec.isSome = true :=
  ⟨by decide, (c6_parse_time_safe "2026-02-21 12:34").2.1 _ (by decide)⟩

/-! ## C8: `fetch_source` never raises outward -/

/-- C8: for every environment and source configuration the unified
entry point returns normally with a list; a raised error inside the
dispatched fetcher degrades to the empty list, and a successful fetch
is passed through. -/
theorem c8_fetch_source_never_raises (env : NetEnv) (src : SourceConfig) :
    (∃ l, fetch_sourceE env src = Except.ok l) ∧
    (∀ e, fetchDispatch env src = Except.error e → fetch_source env src = []) ∧
    (∀ l, fetchDispatch env src = Except.ok l → fetch_source env src = l) := by
  cases h : fetchDispatch env src with
  | ok l =>
      refine ⟨⟨l, ?_⟩, ?_, ?_⟩
      · simp [fetch_sourceE, h]
      · intro e he
        cases he
      · intro l2 hl
        cases hl
        simp [fetch_source, fetch_sourceE, h]
  | error e =>
      refine ⟨⟨[], ?_⟩, ?_, ?_⟩
      · simp [fetch_sourceE, h]
      · intro e2 he
        simp [fetch_source, fetch_sourceE, h]
      · intro l2 hl
        cases hl

/-- An environment in which every request raises. -/
def envFail : NetEnv :=
  ⟨fun _ => Except.error PyErr.httpError, fun _ => Except.error PyErr.httpError,
   fun _ => Except.error PyErr.httpError, fun _ => ""⟩

/-- The scrape source of the configuration list. -/
def srcOilGasPress : SourceConfig :=
  ⟨"OilGasPress", "综合", "scrape", "https://oilandgaspress.com/news-analysis/", []⟩

/-- Witness for C8: with every request failing, the scrape source
yields the empty list instead of an error. -/
theorem c8_witness : fetch_source envFail srcOilGasPress = [] :=
  (c8_fetch_source_never_raises envFail srcOilGasPress).2.1 PyErr.httpError (by decide)

/-! ## Per-item bounds of each fetcher (for C1, C2 and C9) -/

theorem scrapeItem_eq_some {src : SourceConfig} {art : ScrapeArticle} {n : NewsItem}
    (h : scrapeItem src art = some n) :
    scrapeTitle art ≠ "" ∧ n.title = _truncate (scrapeTitle art) 80 ∧
      n.summary = scrapeSummary art := by
  unfold scrapeItem at h
  split at h
  · cases h
  · rename_i hne
    cases h
    exact ⟨hne, rfl, rfl⟩

theorem clsItem_eq_some {env : NetEnv} {src : SourceConfig} {row : ClsRow} {n : NewsItem}
    (h : clsItem env src row = some n) :
    clsDisplayTitle row ≠ "" ∧ n.title = _truncate (clsDisplayTitle row) 80 ∧
      n.summary = clsSummary row := by
  unfold clsItem at h
  split at h
  · cases h
  · rename_i hne
    cases h
    exact ⟨hne, rfl, rfl⟩

theorem scrapeSummary_le (art : ScrapeArticle) : (scrapeSummary art).length ≤ 501 := by
  unfold scrapeSummary
  split
  · exact _truncate_length_le _ 500
  · simp

theorem clsSummary_le (row : ClsRow) : (clsSummary row).length ≤ 501 := by
  unfold clsSummary
  split
  · exact _truncate_length_le _ 500
  · simp

theorem fetch_scrape_bounds {env : NetEnv} {src : SourceConfig} {l : List NewsItem}
    (hl : _fetch_scrape env src = Except.ok l) :
    ∀ n ∈ l, n.title ≠ "" ∧ n.title.length ≤ 81 ∧ n.summary.length ≤ 501 := by
  unfold _fetch_scrape at hl
  split at hl
  · cases hl
  · cases hl
    intro n hn
    rw [List.mem_filterMap] at hn
    obtain ⟨art, _, hsome⟩ := hn
    obtain ⟨hne, hTitle, hSum⟩ := scrapeItem_eq_some hsome
    refine ⟨?_, ?_, ?_⟩
    · rw [hTitle]
      exact _truncate_ne_empty _ 80 hne
    · rw [hTitle]
      exact _truncate_length_le _ 80
    · rw [hSum]
      exact scrapeSummary_le art

theorem fetch_cls_bounds {env : NetEnv} {src : SourceConfig} {l : List NewsItem}
    (hl : _fetch_cls_api env src = Except.ok l) :
    ∀ n ∈ l, n.title ≠ "" ∧ n.title.length ≤ 81 ∧ n.summary.length ≤ 501 := by
  unfold _fetch_cls_api at hl
  split at hl
  · cases hl
  · cases hl
    intro n hn
    rw [List.mem_filterMap] at hn
    obtain ⟨row, _, hsome⟩ := hn
    obtain ⟨hne, hTitle, hSum⟩ := clsItem_eq_some hsome
    refine ⟨?_, ?_, ?_⟩
    · rw [hTitle]
      exact _truncate_ne_empty _ 80 hne
    · rw [hTitle]
      exact _truncate_length_le _ 80
    · rw [hSum]
      exact clsSummary_le row

theorem fetch_rss_summary_le (env : NetEnv) (src : SourceConfig) :
    ∀ n ∈ _fetch_rss env src, n.summary.length ≤ 501 := by
  intro n hn
  unfold _fetch_rss at hn
  rw [List.mem_map] at hn
  obtain ⟨e, _, he⟩ := hn
  rw [← he]
  exact _truncate_length_le _ 500

/-! ## C1: non-empty titles -/

/-- C1 (amended): the scrape and API fetchers drop every container or
row from which no title can be derived, so each of their items has a
non-empty title; the RSS fetcher performs no such check (see the
counterexample). -/
theorem c1_scrape_api_titles_nonempty :
    (∀ (env : NetEnv) (src : SourceConfig) (l : List NewsItem),
      _fetch_scrape env src = Except.ok l → ∀ n ∈ l, n.title ≠ "") ∧
    (∀ (env : NetEnv) (src : SourceConfig) (l : List NewsItem),
      _fetch_cls_api env src = Except.ok l → ∀ n ∈ l, n.title ≠ "") := by
  constructor
  · intro env src l hl n hn
    exact (fetch_scrape_bounds hl n hn).1
  · intro env src l hl n hn
    exact (fetch_cls_bounds hl n hn).1

/-- A feed entry carrying no title at all. -/
def entryNoTitle : RSSEntry :=
  ⟨none, some "OPEC raises production quota for oil markets worldwide", none,
   some "https://example.com/a", some "Sat, 21 Feb 2026 12:00:00 GMT", none⟩

/-- An environment whose feed URL delivers that single entry. -/
def envRssNoTitle : NetEnv :=
  ⟨fun _ => Except.ok [entryNoTitle], fun _ => Except.error PyErr.httpError,
   fun _ => Except.error PyErr.httpError, fun _ => ""⟩

/-- The first RSS source of the configuration list. -/
def srcCNBC : SourceConfig :=
  ⟨"CNBC", "国际", "rss", "https://www.cnbc.com/id/19836768/device/rss/rss.html", []⟩

/-- Counterexample to C1 as stated: the RSS fetcher emits an item with
an empty title instead of dropping the title-less entry. -/
theorem c1_rss_empty_title_cex :
    (_fetch_rss envRssNoTitle srcCNBC).map (fun n => n.title) = [""] ∧
    (_fetch_rss envRssNoTitle srcCNBC).length = 1 := by
  constructor
  · decide
  · decide

/-- A scrape container with a derivable title. -/
def artDemo : ScrapeArticle :=
  ⟨false, ⟨"", false, none, none⟩,
   some ⟨"Oil prices rise on OPEC cuts", false, none, some "/news/oil-rises"⟩,
   some "Crude futures climbed amid supply concerns.", some "2026-02-21"⟩

/-- A page whose article selector matches that container. -/
def pageDemo : ScrapePage := ⟨[artDemo], []⟩

/-- An environment delivering that page. -/
def envScrapeDemo : NetEnv :=
  ⟨fun _ => Except.error PyErr.httpError, fun _ => Except.ok pageDemo,
   fun _ => Except.error PyErr.httpError, fun _ => ""⟩

/-- The item the demo scrape produces. -/
def demoScrapeItem : NewsItem :=
  ((scrapeArts pageDemo).filterMap (scrapeItem srcOilGasPress)).headD
    ⟨"", "", "", "", "", ""⟩

/-- A cls.cn row with a depth title. -/
def rowDemo : ClsRow :=
  ⟨"国际油价上涨，原油市场走强，市场关注欧佩克产量决定。", "", some "油价快讯",
   "https://www.cls.cn/x", 1700000000⟩

/-- An environment delivering that row. -/
def envClsDemo : NetEnv :=
  ⟨fun _ => Except.error PyErr.httpError, fun _ => Except.error PyErr.httpError,
   fun _ => Except.ok [rowDemo], fun _ => "2026-02-21 09:00"⟩

/-- The API source of the configuration list. -/
def srcCLS : SourceConfig :=
  ⟨"财联社", "财经", "cls_api",
   "https://www.cls.cn/nodeapi/telegraphList?app=CailianpressWeb&os=web&sv=8.4.6&rn=200", []⟩

/-- The item the demo row produces. -/
def demoClsItem : NewsItem :=
  ([rowDemo].filterMap (clsItem envClsDemo srcCLS)).headD ⟨"", "", "", "", "", ""⟩

/-- Witness for the amended C1 at concrete inputs. -/
theorem c1_witness : demoScrapeItem.title ≠ "" ∧ demoClsItem.title ≠ "" :=
  ⟨c1_scrape_api_titles_nonempty.1 envScrapeDemo srcOilGasPress _ rfl demoScrapeItem
     (by decide),
   c1_scrape_api_titles_nonempty.2 envClsDemo srcCLS _ rfl demoClsItem (by decide)⟩

/-! ## C2: length caps after truncation -/

/-- C2 (amended): the scrape and API fetchers cap titles at 80
characters plus a one-character ellipsis when cut (so at most 81), and
every fetcher caps summaries at 500 characters plus the ellipsis (so
at most 501); the RSS fetcher leaves titles untruncated (see the
counterexample). -/
theorem c2_caps_amended :
    (∀ (env : NetEnv) (src : SourceConfig) (l : List NewsItem),
        _fetch_scrape env src = Except.ok l →
        ∀ n ∈ l, n.title.length ≤ 81 ∧ n.summary.length ≤ 501) ∧
    (∀ (env : NetEnv) (src : SourceConfig) (l : List NewsItem),
        _fetch_cls_api env src = Except.ok l →
        ∀ n ∈ l, n.title.length ≤ 81 ∧ n.summary.length ≤ 501) ∧
    (∀ (env : NetEnv) (src : SourceConfig),
        ∀ n ∈ _fetch_rss env src, n.summary.length ≤ 501) := by
  refine ⟨?_, ?_, ?_⟩
  · intro env src l hl n hn
    exact ⟨(fetch_scrape_bounds hl n hn).2.1, (fetch_scrape_bounds hl n hn).2.2⟩
  · intro env src l hl n hn
    exact ⟨(fetch_cls_bounds hl n hn).2.1, (fetch_cls_bounds hl n hn).2.2⟩
  · exact fetch_rss_summary_le

/-- A feed entry whose title is 100 characters and whose summary is
800 characters long. -/
def entryLongTitle : RSSEntry :=
  ⟨some (String.mk (List.replicate 100 'T')), some (String.mk (List.replicate 800 's')),
   none, some "https://example.com/b", some "Sat, 21 Feb 2026 12:00:00 GMT", none⟩

/-- An environment whose feed URL delivers that single entry. -/
def envRssLongTitle : NetEnv :=
  ⟨fun _ => Except.ok [entryLongTitle], fun _ => Except.error PyErr.httpError,
   fun _ => Except.error PyErr.httpError, fun _ => ""⟩

/-- The second RSS source of the configuration list. -/
def srcBloomberg : SourceConfig :=
  ⟨"Bloomberg", "财经", "rss",
   "https://news.google.com/rss/search?q=site:bloomberg.com+energy+oil+gas&hl=en&gl=US&ceid=US:en",
   []⟩

set_option maxRecDepth 8000 in
/-- Counterexample to C2 as stated: the RSS fetcher stores the
100-character title unchanged, beyond every 80-character cap, and a
truncated summary is 501 characters, one above the stated 500. -/
theorem c2_rss_long_title_cex :
    (_fetch_rss envRssLongTitle srcBloomberg).map (fun n => n.title.length) = [100] ∧
    (_fetch_rss envRssLongTitle srcBloomberg).map (fun n => n.summary.length) = [501] ∧
    ¬ (100 ≤ 80) ∧ ¬ (501 ≤ 500) := by
  refine ⟨by decide, by decide, by decide, by decide⟩

/-- Witness for the amended C2 at concrete inputs. -/
theorem c2_witness :
    (demoScrapeItem.title.length ≤ 81 ∧ demoScrapeItem.summary.length ≤ 501) ∧
    (demoClsItem.title.length ≤ 81 ∧ demoClsItem.summary.length ≤ 501) :=
  ⟨c2_caps_amended.1 envScrapeDemo srcOilGasPress _ rfl demoScrapeItem (by decide),
   c2_caps_amended.2.1 envClsDemo srcCLS _ rfl demoClsItem (by decide)⟩

/-! ## C9: every summary write site is truncated to at most 501 -/

/-- C9: each fetcher stores summaries of at most 501 characters (500
plus the ellipsis mark), and both in-place overwrites — enrichment and
translation — preserve that bound because they pass their text through
`_truncate`; such a summary always fits the 4500-character translation
budget. -/
theorem c9_summary_bound :
    (∀ (env : NetEnv) (src : SourceConfig),
        ∀ n ∈ _fetch_rss env src, n.summary.length ≤ 501) ∧
    (∀ (env : NetEnv) (src : SourceConfig) (l : List NewsItem),
        _fetch_scrape env src = Except.ok l → ∀ n ∈ l, n.summary.length ≤ 501) ∧
    (∀ (env : NetEnv) (src : SourceConfig) (l : List NewsItem),
        _fetch_cls_api env src = Except.ok l → ∀ n ∈ l, n.summary.length ≤ 501) ∧
    (∀ (item : NewsItem) (desc : String),
        item.summary.length ≤ 501 → (enrichApply item desc).summary.length ≤ 501) ∧
    (∀ (item : NewsItem) (result : String),
        item.summary.length ≤ 501 → (translateApply item result).summary.length ≤ 501) ∧
    (∀ item : NewsItem, item.summary.length ≤ 501 → item.summary.length ≤ 4500) := by
  refine ⟨fetch_rss_summary_le, ?_, ?_, ?_, ?_, ?_⟩
  · intro env src l hl n hn
    exact (fetch_scrape_bounds hl n hn).2.2
  · intro env src l hl n hn
    exact (fetch_cls_bounds hl n hn).2.2
  · intro item desc hle
    unfold enrichApply
    split
    · exact _truncate_length_le desc 500
    · exact hle
  · intro item result hle
    unfold translateApply
    split
    · exact _truncate_length_le result 500
    · exact hle
  · intro item hle
    omega

/-- A feed entry with a long summary. -/
def entrySummaryDemo : RSSEntry :=
  ⟨some "Oil surges", some (String.mk (List.replicate 800 's')), none,
   some "https://example.com/c", some "Sat, 21 Feb 2026 12:00:00 GMT", none⟩

/-- An environment whose feed URL delivers that single entry. -/
def envRssSummaryDemo : NetEnv :=
  ⟨fun _ => Except.ok [entrySummaryDemo], fun _ => Except.error PyErr.httpError,
   fun _ => Except.error PyErr.httpError, fun _ => ""⟩

/-- The item the demo feed produces. -/
def demoRssItem : NewsItem :=
  (_fetch_rss envRssSummaryDemo srcCNBC).headD ⟨"", "", "", "", "", ""⟩

set_option maxRecDepth 8000 in
/-- Witness for C9 at concrete inputs: the fetched summary is capped,
and both overwrites keep it capped even for a 1000-character text. -/
theorem c9_witness :
    demoRssItem.summary.length ≤ 501 ∧
    demoScrapeItem.summary.length ≤ 501 ∧
    (enrichApply demoRssItem (String.mk (List.replicate 1000 'd'))).summary.length ≤ 501 ∧
    (translateApply demoRssItem (String.mk (List.replicate 1000 'r'))).summary.length ≤ 501 :=
  ⟨c9_summary_bound.1 envRssSummaryDemo srcCNBC demoRssItem (by decide),
   c9_summary_bound.2.1 envScrapeDemo srcOilGasPress _ rfl demoScrapeItem (by decide),
   c9_summary_bound.2.2.2.1 demoRssItem (String.mk (List.replicate 1000 'd')) (by decide),
   c9_summary_bound.2.2.2.2.1 demoRssItem (String.mk (List.replicate 1000 'r')) (by decide)⟩

/-! ## C10: an empty title makes every summary useless -/

/-- C10: with an empty title the useless-summary predicate holds for
every summary, long ones included, because every string starts with
the empty 30-character title head; such an item is selected for
enrichment whenever its link is non-empty. -/
theorem c10_empty_title_always_useless :
    (∀ s : String, _is_summary_useless "" s = true) ∧
    (∀ (l : List NewsItem) (n : NewsItem), n ∈ l → n.title = "" → n.link ≠ "" →
       n ∈ needEnrich l) := by
  have h1 : ∀ s : String, _is_summary_useless "" s = true := by
    intro s
    unfold _is_summary_useless
    split
    · rfl
    · show (pyTake (pyStrip (pyLower "")) 30).data.isPrefixOf (pyStrip (pyLower s)).data = true
      have he : (pyTake (pyStrip (pyLower "")) 30).data = [] := rfl
      rw [he]
      simp [List.isPrefixOf]
  refine ⟨h1, ?_⟩
  intro l n hmem htitle hlink
  unfold needEnrich
  rw [List.mem_filter]
  refine ⟨hmem, ?_⟩
  simp only [decide_eq_true_eq]
  constructor
  · rw [htitle]
    exact h1 n.summary
  · exact hlink

/-- An item with an empty title, a 200-character summary and a link. -/
def demoUselessItem : NewsItem :=
  ⟨"国际", "", String.mk (List.replicate 200 's'), "CNBC", "https://example.com/a", ""⟩

set_option maxRecDepth 4000 in
/-- Witness for C10: the predicate fires on a 200-character summary
under an empty title, and the item is selected for enrichment. -/
theorem c10_witness :
    _is_summary_useless "" (String.mk (List.replicate 200 's')) = true ∧
    demoUselessItem ∈ needEnrich [demoUselessItem] :=
  ⟨c10_empty_title_always_useless.1 (String.mk (List.replicate 200 's')),
   c10_empty_title_always_useless.2 [demoUselessItem] demoUselessItem (by simp) rfl
     (by decide)⟩

/-! ## C3: the per-source cap keeps the first five per source -/

theorem limitGo_filter (s : String) :
    ∀ (l : List NewsItem) (cnt : String → Nat),
      (limitGo cnt l).filter (fun n => n.source == s) =
        (l.filter (fun n => n.source == s)).take (MAX_ITEMS_PER_SOURCE - cnt s) := by
  intro l
  induction l with
  | nil =>
      intro cnt
      simp [limitGo]
  | cons n rest ih =>
      intro cnt
      simp only [limitGo]
      cases hsb : (n.source == s) with
      | true =>
          have hs : n.source = s := eq_of_beq hsb
          subst hs
          have hfc : ∀ X : List NewsItem,
              (n :: X).filter (fun m => m.source == n.source) =
                n :: X.filter (fun m => m.source == n.source) := by
            intro X
            simp [List.filter_cons, hsb]
          by_cases hc : cnt n.source + 1 ≤ MAX_ITEMS_PER_SOURCE
          · rw [if_pos hc, hfc, hfc, ih, if_pos rfl]
            have h5 : MAX_ITEMS_PER_SOURCE - cnt n.source
                = (MAX_ITEMS_PER_SOURCE - (cnt n.source + 1)) + 1 := by
              unfold MAX_ITEMS_PER_SOURCE at hc ⊢
              omega
            rw [h5, List.take_succ_cons]
          · rw [if_neg hc, hfc, ih, if_pos rfl]
            have h1 : MAX_ITEMS_PER_SOURCE - (cnt n.source + 1) = 0 := by
              unfold MAX_ITEMS_PER_SOURCE at hc ⊢
              omega
            have h2 : MAX_ITEMS_PER_SOURCE - cnt n.source = 0 := by
              unfold MAX_ITEMS_PER_SOURCE at hc ⊢
              omega
            rw [h1, h2]
            simp
      | false =>
          have hs : n.source ≠ s := ne_of_beq_false hsb
          have hfc : ∀ X : List NewsItem,
              (n :: X).filter (fun m => m.source == s) =
                X.filter (fun m => m.source == s) := by
            intro X
            simp [List.filter_cons, hsb]
          by_cases hc : cnt n.source + 1 ≤ MAX_ITEMS_PER_SOURCE
          · rw [if_pos hc, hfc, hfc, ih, if_neg (fun hss => hs hss.symm)]
          · rw [if_neg hc, hfc, ih, if_neg (fun hss => hs hss.symm)]

theorem limitGo_sublist : ∀ (l : List NewsItem) (cnt : String → Nat),
    List.Sublist (limitGo cnt l) l := by
  intro l
  induction l with
  | nil =>
      intro cnt
      exact List.Sublist.slnil
  | cons n rest ih =>
      intro cnt
      simp only [limitGo]
      split
      · exact List.Sublist.cons₂ n (ih _)
      · exact List.Sublist.cons n (ih _)

/-- C3: on the merged post-filter list, the per-source cap keeps, for
each source name, exactly the first five items of that source in
arrival order, the retained list is a subsequence of the input, and a
source contributing k filtered items retains exactly `min 5 k` (so 8
yields 5). -/
theorem c3_per_source_cap (l : List NewsItem) (s : String) :
    (limitPerSource l).filter (fun n => n.source == s) =
      (l.filter (fun n => n.source == s)).take MAX_ITEMS_PER_SOURCE ∧
    List.Sublist (limitPerSource l) l ∧
    ((limitPerSource l).filter (fun n => n.source == s)).length =
      min MAX_ITEMS_PER_SOURCE (l.filter (fun n => n.source == s)).length := by
  refine ⟨?_, limitGo_sublist l _, ?_⟩
  · unfold limitPerSource
    rw [limitGo_filter s l (fun _ => 0), Nat.sub_zero]
  · unfold limitPerSource
    rw [limitGo_filter s l (fun _ => 0), List.length_take, Nat.sub_zero]

/-- A merged filtered list in which 财联社 contributes eight items. -/
def itemsC3 : List NewsItem :=
  [⟨"财经", "t1", "", "财联社", "", ""⟩, ⟨"财经", "t2", "", "财联社", "", ""⟩,
   ⟨"国际", "u1", "", "CNBC", "", ""⟩, ⟨"财经", "t3", "", "财联社", "", ""⟩,
   ⟨"财经", "t4", "", "财联社", "", ""⟩, ⟨"财经", "t5", "", "财联社", "", ""⟩,
   ⟨"财经", "t6", "", "财联社", "", ""⟩, ⟨"财经", "t7", "", "财联社", "", ""⟩,
   ⟨"财经", "t8", "", "财联社", "", ""⟩]

/-- Witness for C3 at a concrete list (eight items of one source). -/
theorem c3_witness :
    (limitPerSource itemsC3).filter (fun n => n.source == "财联社") =
      (itemsC3.filter (fun n => n.source == "财联社")).take MAX_ITEMS_PER_SOURCE ∧
    List.Sublist (limitPerSource itemsC3) itemsC3 ∧
    ((limitPerSource itemsC3).filter (fun n => n.source == "财联社")).length =
      min MAX_ITEMS_PER_SOURCE (itemsC3.filter (fun n => n.source == "财联社")).length :=
  c3_per_source_cap itemsC3 "财联社"


/-! ## C7: the translation batcher -/

theorem batchLen_reverse (b : List String) : batchLen b.reverse = batchLen b := by
  unfold batchLen
  rw [List.map_reverse, List.sum_reverse]

theorem batchLen_cons (t : String) (b : List String) :
    batchLen (t :: b) = t.length + batchLen b := by
  unfold batchLen
  simp

theorem batchGo_cons_true {acc : List String} {cnt : Nat} {t : String} {ts : List String}
    (h : 4500 < cnt + t.length ∧ ¬ acc.isEmpty = true) :
    batchGo acc cnt (t :: ts) = acc.reverse :: batchGo [t] t.length ts := by
  simp only [batchGo]
  rw [if_pos h]

theorem batchGo_cons_false {acc : List String} {cnt : Nat} {t : String} {ts : List String}
    (h : ¬ (4500 < cnt + t.length ∧ ¬ acc.isEmpty = true)) :
    batchGo acc cnt (t :: ts) = batchGo (t :: acc) (cnt + t.length) ts := by
  simp only [batchGo]
  rw [if_neg h]

theorem batchGo_nil_of_ne {acc : List String} {cnt : Nat} (h : ¬ acc.isEmpty = true) :
    batchGo acc cnt [] = [acc.reverse] := by
  simp only [batchGo]
  rw [if_neg h]

theorem batchGo_flatten : ∀ (ts acc : List String) (cnt : Nat),
    (batchGo acc cnt ts).flatten = acc.reverse ++ ts := by
  intro ts
  induction ts with
  | nil =>
      intro acc cnt
      simp only [batchGo]
      split
      · rename_i he
        rw [List.isEmpty_iff.mp he]
        simp
      · simp
  | cons t ts ih =>
      intro acc cnt
      simp only [batchGo]
      split
      · simp [ih]
      · rw [ih]
        simp

theorem batchGo_bounded : ∀ (ts acc : List String) (cnt : Nat),
    (∀ t ∈ ts, t.length ≤ 4500) → cnt = batchLen acc → cnt ≤ 4500 →
    ∀ b ∈ batchGo acc cnt ts, batchLen b ≤ 4500 := by
  intro ts
  induction ts with
  | nil =>
      intro acc cnt hts hcnt hle b hb
      simp only [batchGo] at hb
      split at hb
      · cases hb
      · rw [List.mem_singleton] at hb
        subst hb
        rw [batchLen_reverse]
        omega
  | cons t ts ih =>
      intro acc cnt hts hcnt hle b hb
      simp only [batchGo] at hb
      split at hb
      · rw [List.mem_cons] at hb
        cases hb with
        | inl hb =>
            subst hb
            rw [batchLen_reverse]
            omega
        | inr hb =>
            refine ih [t] t.length ?_ ?_ ?_ b hb
            · intro t2 ht2
              exact hts t2 (List.mem_cons_of_mem t ht2)
            · simp [batchLen]
            · exact hts t (List.mem_cons_self t ts)
      · rename_i hcond
        refine ih (t :: acc) (cnt + t.length) ?_ ?_ ?_ b hb
        · intro t2 ht2
          exact hts t2 (List.mem_cons_of_mem t ht2)
        · rw [batchLen_cons]
          omega
        · by_cases hA : acc.isEmpty
          · have hae : acc = [] := List.isEmpty_iff.mp hA
            subst hae
            have h0 : cnt = 0 := by simpa [batchLen] using hcnt
            have hlt := hts t (List.mem_cons_self t ts)
            omega
          · have hlt : ¬ 4500 < cnt + t.length := fun hx => hcond ⟨hx, hA⟩
            omega

/-- A 4000-character candidate text. -/
def textA : String := String.mk (List.replicate 4000 'a')

/-- A 1000-character candidate text. -/
def textB : String := String.mk (List.replicate 1000 'b')

/-- A 3000-character candidate text. -/
def textC : String := String.mk (List.replicate 3000 'c')

/-- C7: the translation batcher groups the candidate texts in input
order (their concatenation is the input list, so no text is ever
split), and — since each candidate fits the 4500-character budget, as
every pipeline summary does — no batch total exceeds 4500; on lengths
[4000, 1000, 3000] it produces the batches [[4000], [1000, 3000]]. -/
theorem c7_translation_batching :
    (∀ texts : List String, (∀ t ∈ texts, t.length ≤ 4500) →
       (_translate_batches texts).flatten = texts ∧
       ∀ b ∈ _translate_batches texts, batchLen b ≤ 4500) ∧
    _translate_batches [textA, textB, textC] = [[textA], [textB, textC]] := by
  have la : textA.length = 4000 := by
    rw [textA, length_mk, List.length_replicate]
  have lb : textB.length = 1000 := by
    rw [textB, length_mk, List.length_replicate]
  have lc : textC.length = 3000 := by
    rw [textC, length_mk, List.length_replicate]
  constructor
  · intro texts hts
    constructor
    · have h := batchGo_flatten texts [] 0
      simpa [_translate_batches] using h
    · intro b hb
      exact batchGo_bounded texts [] 0 hts rfl (by omega) b hb
  · show batchGo [] 0 [textA, textB, textC] = [[textA], [textB, textC]]
    rw [batchGo_cons_false (by simp),
      batchGo_cons_true ⟨by rw [la, lb]; norm_num, by simp⟩,
      batchGo_cons_false (by
        intro hx
        rw [lb, lc] at hx
        exact absurd hx.1 (by norm_num)),
      batchGo_nil_of_ne (by simp)]
    simp

/-- Witness for C7 at a concrete input. -/
theorem c7_witness :
    (_translate_batches ["oil prices climb"]).flatten = ["oil prices climb"] ∧
    batchLen ["oil prices climb"] ≤ 4500 :=
  ⟨(c7_translation_batching.1 ["oil prices climb"] (by decide)).1,
   (c7_translation_batching.1 ["oil prices climb"] (by decide)).2 ["oil prices climb"]
     (by decide)⟩

/-! ## C4 and C5: freshness cutoff and final descending sort -/

theorem mem_insDesc {x y : TimedNews} :
    ∀ {l : List TimedNews}, y ∈ insDesc x l → y = x ∨ y ∈ l := by
  intro l
  induction l with
  | nil =>
      intro h
      rw [insDesc] at h
      rw [List.mem_singleton] at h
      exact Or.inl h
  | cons z zs ih =>
      intro h
      rw [insDesc] at h
      split at h
      · rw [List.mem_cons] at h
        cases h with
        | inl h => exact Or.inl h
        | inr h => exact Or.inr h
      · rw [List.mem_cons] at h
        cases h with
        | inl h => exact Or.inr (by rw [h]; exact List.mem_cons_self z zs)
        | inr h =>
            cases ih h with
            | inl h2 => exact Or.inl h2
            | inr h2 => exact Or.inr (List.mem_cons_of_mem z h2)

theorem pairwise_insDesc (x : TimedNews) :
    ∀ {l : List TimedNews}, List.Pairwise (fun a b => sortKey b ≤ sortKey a) l →
      List.Pairwise (fun a b => sortKey b ≤ sortKey a) (insDesc x l) := by
  intro l
  induction l with
  | nil =>
      intro _
      rw [insDesc]
      exact List.pairwise_singleton _ x
  | cons y ys ih =>
      intro h
      rw [List.pairwise_cons] at h
      rw [insDesc]
      split
      · rename_i hlt
        rw [List.pairwise_cons]
        refine ⟨?_, List.pairwise_cons.mpr h⟩
        intro z hz
        rw [List.mem_cons] at hz
        cases hz with
        | inl hz =>
            subst hz
            omega
        | inr hz =>
            have := h.1 z hz
            omega
      · rename_i hge
        rw [List.pairwise_cons]
        refine ⟨?_, ih h.2⟩
        intro z hz
        cases mem_insDesc hz with
        | inl hz2 =>
            subst hz2
            omega
        | inr hz2 => exact h.1 z hz2

theorem pairwise_sortDesc_aux :
    ∀ (l acc : List TimedNews),
      List.Pairwise (fun a b => sortKey b ≤ sortKey a) acc →
      List.Pairwise (fun a b => sortKey b ≤ sortKey a)
        (l.foldl (fun acc x => insDesc x acc) acc) := by
  intro l
  induction l with
  | nil =>
      intro acc h
      exact h
  | cons x xs ih =>
      intro acc h
      exact ih (insDesc x acc) (pairwise_insDesc x h)

theorem sortDesc_pairwise (l : List TimedNews) :
    List.Pairwise (fun a b => sortKey b ≤ sortKey a) (sortDesc l) :=
  pairwise_sortDesc_aux l [] List.Pairwise.nil

theorem mem_sortDesc_aux :
    ∀ (l acc : List TimedNews) (y : TimedNews),
      y ∈ l.foldl (fun acc x => insDesc x acc) acc → y ∈ acc ∨ y ∈ l := by
  intro l
  induction l with
  | nil =>
      intro acc y h
      exact Or.inl h
  | cons x xs ih =>
      intro acc y h
      cases ih (insDesc x acc) y h with
      | inl h2 =>
          cases mem_insDesc h2 with
          | inl h3 => exact Or.inr (by rw [h3]; exact List.mem_cons_self x xs)
          | inr h3 => exact Or.inl h3
      | inr h2 => exact Or.inr (List.mem_cons_of_mem x h2)

theorem mem_sortDesc {y : TimedNews} {l : List TimedNews} (h : y ∈ sortDesc l) : y ∈ l := by
  cases mem_sortDesc_aux l [] y h with
  | inl h2 => cases h2
  | inr h2 => exact h2

theorem freshKeep_iff (now : Nat) (n : TimedNews) :
    freshKeep now n = true ↔ ∀ t, n.dt = some t → cutoffOf now ≤ t := by
  unfold freshKeep
  cases h : n.dt with
  | none => simp [h]
  | some t => simp [h]

set_option maxRecDepth 4000 in
/-- C5: the freshness stage keeps exactly the items whose resolved
time is unknown or not strictly older than the two-week cutoff; an
item from 13 days ago survives, one from 15 days ago is dropped, one
with unknown time survives regardless. -/
theorem c5_freshness_cutoff (now : Nat) (l : List TimedNews) (h15 : 1296000 ≤ now) :
    (∀ n, n ∈ freshFilter now l ↔
        n ∈ l ∧ ∀ t, n.dt = some t → cutoffOf now ≤ t) ∧
    (∀ n, n ∈ l → n.dt = some (now - 1123200) → n ∈ freshFilter now l) ∧
    (∀ n, n.dt = some (now - 1296000) → n ∉ freshFilter now l) ∧
    (∀ n, n ∈ l → n.dt = none → n ∈ freshFilter now l) := by
  have hmem : ∀ n : TimedNews, n ∈ freshFilter now l ↔ n ∈ l ∧ freshKeep now n = true := by
    intro n
    exact List.mem_filter
  refine ⟨?_, ?_, ?_, ?_⟩
  · intro n
    rw [hmem, freshKeep_iff]
  · intro n hn hdt
    rw [hmem, freshKeep_iff]
    refine ⟨hn, ?_⟩
    intro t ht
    rw [hdt] at ht
    have ht2 : now - 1123200 = t := Option.some.inj ht
    rw [← ht2]
    unfold cutoffOf twoWeeks
    omega
  · intro n hdt hin
    rw [hmem, freshKeep_iff] at hin
    have hc := hin.2 _ hdt
    unfold cutoffOf twoWeeks at hc
    omega
  · intro n hn hdt
    rw [hmem, freshKeep_iff]
    refine ⟨hn, ?_⟩
    intro t ht
    rw [hdt] at ht
    cases ht

/-- C4: in the final list (after the freshness cutoff and the
descending sort) the sort keys are non-increasing, and every item with
a known resolved time precedes every item with unknown time, because a
surviving known time is at least the positive cutoff while unknown
sorts as the minimum. -/
theorem c4_sort_order (now : Nat) (l : List TimedNews) (hnow : twoWeeks < now) :
    List.Pairwise (fun a b => sortKey b ≤ sortKey a) (pipelineTail now l) ∧
    List.Pairwise (fun a b => a.dt = none → b.dt = none) (pipelineTail now l) := by
  have hp : List.Pairwise (fun a b => sortKey b ≤ sortKey a) (pipelineTail now l) :=
    sortDesc_pairwise _
  refine ⟨hp, ?_⟩
  have hmemF : ∀ n : TimedNews, n ∈ pipelineTail now l → freshKeep now n = true := by
    intro n hn
    have hf := mem_sortDesc hn
    exact (List.mem_filter.mp hf).2
  refine hp.imp_of_mem ?_
  intro a b ha hb hab hadt
  by_contra hbne
  cases hb2 : b.dt with
  | none => exact hbne hb2
  | some t =>
      have hct : cutoffOf now ≤ t := (freshKeep_iff now b).mp (hmemF b hb) t hb2
      have hka : sortKey a = 0 := by simp [sortKey, hadt]
      have hkb : sortKey b = t := by simp [sortKey, hb2]
      rw [hka, hkb] at hab
      unfold cutoffOf twoWeeks at hct
      unfold twoWeeks at hnow
      omega

/-- A final-stage item with a known in-window timestamp. -/
def demoTimedA : TimedNews := ⟨⟨"财经", "t1", "s", "财联社", "", ""⟩, some 1500000⟩

/-- A final-stage item with unknown resolved time. -/
def demoTimedB : TimedNews := ⟨⟨"国际", "t2", "s", "CNBC", "", ""⟩, none⟩

/-- Witness for C4 at a concrete input. -/
theorem c4_witness :
    List.Pairwise (fun a b => sortKey b ≤ sortKey a)
      (pipelineTail 2000000 [demoTimedA, demoTimedB]) ∧
    List.Pairwise (fun a b => a.dt = none → b.dt = none)
      (pipelineTail 2000000 [demoTimedA, demoTimedB]) :=
  c4_sort_order 2000000 [demoTimedA, demoTimedB] (by decide)

/-- An item timestamped 13 days before `now = 2000000`. -/
def demoFresh13 : TimedNews := ⟨⟨"财经", "f13", "", "财联社", "", ""⟩, some 876800⟩

/-- An item timestamped 15 days before `now = 2000000`. -/
def demoFresh15 : TimedNews := ⟨⟨"财经", "f15", "", "财联社", "", ""⟩, some 704000⟩

/-- An item with unknown resolved time. -/
def demoFreshNone : TimedNews := ⟨⟨"财经", "fx", "", "财联社", "", ""⟩, none⟩

/-- The freshness-stage demo list. -/
def demoFreshList : List TimedNews := [demoFresh13, demoFresh15, demoFreshNone]

/-- Witness for C5: 13 days old survives, 15 days old is dropped,
unknown survives. -/
theorem c5_witness :
    demoFresh13 ∈ freshFilter 2000000 demoFreshList ∧
    demoFresh15 ∉ freshFilter 2000000 demoFreshList ∧
    demoFreshNone ∈ freshFilter 2000000 demoFreshList :=
  ⟨(c5_freshness_cutoff 2000000 demoFreshList (by decide)).2.1 demoFresh13
     (by decide) (by decide),
   (c5_freshness_cutoff 2000000 demoFreshList (by decide)).2.2.1 demoFresh15 (by decide),
   (c5_freshness_cutoff 2000000 demoFreshList (by decide)).2.2.2 demoFreshNone
     (by decide) rfl⟩
